import Mathlib

/-!
Verification of the `esp-hal-smartled` smart-LED RMT driver.

This file gives a shallow embedding, in Lean, of the pure core of the crate
(`src/lib.rs` and `src/graphics.rs`): the color/channel model, the channel
orderings, the timing-to-ticks conversion, buffer sizing, the pulse encoder
`create_rmt_data` together with its helper loops, both write paths (the
hardware transmit outcome is an explicit oracle parameter), and the 2D
coordinate mapping and `draw_iter` of the graphics layer.

Machine integers are modelled as `Nat` with explicit `% 2^w` where the source
can overflow (`as u16` / `as u32` casts); fallible paths return `Except` or
carry an explicit success flag together with the partially mutated state, the
way the Rust code mutates its buffer in place through `iter_mut`.
-/

/-- Hardware-level pulse descriptor of the RMT peripheral (`esp_hal::rmt::PulseCode`):
two (level, duration-in-ticks) pairs. Durations are `u16` values, levels are
booleans (`true` = `Level::High`). -/
structure PulseCode where
  level1 : Bool
  length1 : Nat
  level2 : Bool
  length2 : Nat
deriving DecidableEq, Repr

/-- `PulseCode::new(l1, d1, l2, d2)` of `esp_hal`. -/
def PulseCode.new (l1 : Bool) (d1 : Nat) (l2 : Bool) (d2 : Nat) : PulseCode :=
  ⟨l1, d1, l2, d2⟩

/-- `PulseCode::end_marker()` of `esp_hal`: the all-zero sentinel descriptor. -/
def PulseCode.end_marker : PulseCode := ⟨false, 0, false, 0⟩

/-- The inner HAL error type `esp_hal::rmt::Error`; opaque to this crate, so a
wrapper around an abstract code. -/
structure RmtError where
  code : Nat
deriving DecidableEq, Repr

/-- An RMT transmit channel (`esp_hal::rmt::Channel`); externally owned hardware
resource, opaque to this crate. -/
structure Channel where
  id : Nat
deriving DecidableEq, Repr

instance : Inhabited Channel := ⟨⟨0⟩⟩

/-- `AdapterError` from `src/lib.rs`. -/
inductive AdapterError where
  | BufferSizeExceeded : AdapterError
  | TransmissionError : RmtError → AdapterError
deriving DecidableEq, Repr

deriving instance DecidableEq for Except

/-- The `Timing` trait of `src/lib.rs`: four nanosecond durations (`u16`). -/
structure Timing where
  TIME_0_LOW : Nat
  TIME_0_HIGH : Nat
  TIME_1_LOW : Nat
  TIME_1_HIGH : Nat
deriving DecidableEq, Repr

def SK68XX_CODE_PERIOD : Nat := 1200

/-- `Sk68xxTiming` from `src/lib.rs`. -/
def Sk68xxTiming : Timing :=
  { TIME_0_HIGH := 320
    TIME_0_LOW := SK68XX_CODE_PERIOD - 320
    TIME_1_HIGH := 640
    TIME_1_LOW := SK68XX_CODE_PERIOD - 640 }

/-- `Ws2812bTiming` from `src/lib.rs`. -/
def Ws2812bTiming : Timing :=
  { TIME_0_HIGH := 400, TIME_0_LOW := 800, TIME_1_HIGH := 850, TIME_1_LOW := 450 }

/-- `Ws2812Timing` from `src/lib.rs`. -/
def Ws2812Timing : Timing :=
  { TIME_0_HIGH := 350, TIME_0_LOW := 700, TIME_1_HIGH := 800, TIME_1_LOW := 600 }

/-- `Ws2811LowSpeedTiming` from `src/lib.rs`. -/
def Ws2811LowSpeedTiming : Timing :=
  { TIME_0_HIGH := 500, TIME_0_LOW := 2000, TIME_1_HIGH := 1200, TIME_1_LOW := 1300 }

/-- `Ws2811Timing` from `src/lib.rs`: the low-speed values halved. -/
def Ws2811Timing : Timing :=
  { TIME_0_HIGH := Ws2811LowSpeedTiming.TIME_0_HIGH / 2
    TIME_0_LOW := Ws2811LowSpeedTiming.TIME_0_LOW / 2
    TIME_1_HIGH := Ws2811LowSpeedTiming.TIME_1_HIGH / 2
    TIME_1_LOW := Ws2811LowSpeedTiming.TIME_1_LOW / 2 }

/-- `smart_leds_trait::RGB<T>` (fields `r`, `g`, `b`). -/
structure RGB (T : Type) where
  r : T
  g : T
  b : T
deriving DecidableEq, Repr

/-- `smart_leds_trait::White<T>`: newtype around a channel value; the source
accesses the inner value as `.0`. -/
structure White (T : Type) where
  val : T
deriving DecidableEq, Repr

/-- `smart_leds_trait::RGBW<T>` (fields `r`, `g`, `b`, `a : White<T>`). -/
structure RGBW (T : Type) where
  r : T
  g : T
  b : T
  a : White T
deriving DecidableEq, Repr

/-- `Color::CHANNELS` for `RGB<T>` (`src/lib.rs` line 154). -/
def RGB.CHANNELS : Nat := 3

/-- `Color::CHANNELS` for `RGBW<T>` (`src/lib.rs` line 162). -/
def RGBW.CHANNELS : Nat := 4

/-- `Color::CHANNELS` for `RGBCCT<T>` (`src/lib.rs` line 170). -/
def RGBCCT.CHANNELS : Nat := 5

/-- `Color::CHANNELS` for `White<T>` (`src/lib.rs` line 178). -/
def White.CHANNELS : Nat := 1

/-- `Color::CHANNELS` for `CctWhite<T>` (`src/lib.rs` line 186). -/
def CctWhite.CHANNELS : Nat := 2

/-- `color_order::Rgb::get_channel_data` (`color_order_rgb!(Rgb => r, g, b)`).
The source's `unreachable!()` arm for channels ≥ 3 is modelled as `default`. -/
def color_order.Rgb.get_channel_data {T : Type} [Inhabited T] (color : RGB T) (channel : Nat) : T :=
  match channel with
  | 0 => color.r
  | 1 => color.g
  | 2 => color.b
  | _ => default

/-- `color_order::Rbg::get_channel_data` (`color_order_rgb!(Rbg => r, b, g)`). -/
def color_order.Rbg.get_channel_data {T : Type} [Inhabited T] (color : RGB T) (channel : Nat) : T :=
  match channel with
  | 0 => color.r
  | 1 => color.b
  | 2 => color.g
  | _ => default

/-- `color_order::Grb::get_channel_data` (`color_order_rgb!(Grb => g, r, b)`). -/
def color_order.Grb.get_channel_data {T : Type} [Inhabited T] (color : RGB T) (channel : Nat) : T :=
  match channel with
  | 0 => color.g
  | 1 => color.r
  | 2 => color.b
  | _ => default

/-- `color_order::Gbr::get_channel_data` (`color_order_rgb!(Gbr => g, b, r)`). -/
def color_order.Gbr.get_channel_data {T : Type} [Inhabited T] (color : RGB T) (channel : Nat) : T :=
  match channel with
  | 0 => color.g
  | 1 => color.b
  | 2 => color.r
  | _ => default

/-- `color_order::Brg::get_channel_data` (`color_order_rgb!(Brg => b, r, g)`). -/
def color_order.Brg.get_channel_data {T : Type} [Inhabited T] (color : RGB T) (channel : Nat) : T :=
  match channel with
  | 0 => color.b
  | 1 => color.r
  | 2 => color.g
  | _ => default

/-- `color_order::Bgr::get_channel_data` (`color_order_rgb!(Bgr => b, g, r)`). -/
def color_order.Bgr.get_channel_data {T : Type} [Inhabited T] (color : RGB T) (channel : Nat) : T :=
  match channel with
  | 0 => color.b
  | 1 => color.g
  | 2 => color.r
  | _ => default

/-- `color_order::Rgbw::get_channel_data` (`src/lib.rs` lines 265-273);
channel 3 is `color.a.0`, the inner value of the `White` newtype. -/
def color_order.Rgbw.get_channel_data {T : Type} [Inhabited T] (color : RGBW T) (channel : Nat) : T :=
  match channel with
  | 0 => color.r
  | 1 => color.g
  | 2 => color.b
  | 3 => color.a.val
  | _ => default

/-- `buffer_size::<C>(led_count)` from `src/lib.rs` lines 198-208:
`led_count * (size_of::<C::ChannelType>() * 8) * C::CHANNELS + 1`.
`sz` is `size_of::<C::ChannelType>()` in bytes, `channels` is `C::CHANNELS`. -/
def buffer_size (sz channels : Nat) (led_count : Nat) : Nat :=
  led_count * (sz * 8) * channels + 1

/-- `buffer_size_2d::<C>(width, height)` from `src/graphics.rs` lines 180-182:
`buffer_size::<C>(width * height)`. -/
def buffer_size_2d (sz channels : Nat) (width height : Nat) : Nat :=
  buffer_size sz channels (width * height)

/-- The in-place buffer writer: models `self.rmt_buffer.iter_mut()` as the
underlying buffer contents together with the write position. -/
structure BufCursor where
  buf : List PulseCode
  pos : Nat
deriving DecidableEq, Repr

/-- One `*mut_iter.next().ok_or(...)? = v` step: writes `v` at the cursor when
a slot remains, fails (models `next()` returning `None`) otherwise. -/
def BufCursor.write (it : BufCursor) (v : PulseCode) : Option BufCursor :=
  if it.pos < it.buf.length then some ⟨it.buf.set it.pos v, it.pos + 1⟩ else none

/-- Sequentially write a list of descriptors through the cursor; returns a
success flag and the state reached (on overflow, the writes already performed
persist, the way the Rust code mutates the buffer in place). -/
def writePulses : List PulseCode → BufCursor → Bool × BufCursor
  | [], it => (true, it)
  | v :: vs, it =>
    match it.write v with
    | some it2 => writePulses vs it2
    | none => (false, it)

/-- The loop body of `convert_channel_to_pulses` (`src/lib.rs` lines 514-520):
`for index in (0..size_of::<N>()*8).rev() { ... }`, taken over an explicit
index list. `pulses.1` is the precomputed "0" descriptor, `pulses.2` the "1". -/
def convert_channel_loop (channel_value : Nat) (pulses : PulseCode × PulseCode) :
    List Nat → BufCursor → Bool × BufCursor
  | [], it => (true, it)
  | index :: rest, it =>
    let position := 2 ^ index
    let p := if channel_value &&& position == 0 then pulses.1 else pulses.2
    match it.write p with
    | some it2 => convert_channel_loop channel_value pulses rest it2
    | none => (false, it)

/-- `convert_channel_to_pulses::<N>` from `src/lib.rs` lines 505-523. `sz` is
`size_of::<N>()`; the loop runs over bit indices `sz*8 - 1` down to `0`. -/
def convert_channel_to_pulses (sz : Nat) (channel_value : Nat) (it : BufCursor)
    (pulses : PulseCode × PulseCode) : Bool × BufCursor :=
  convert_channel_loop channel_value pulses (List.range (sz * 8)).reverse it

/-- The loop body of `convert_colors_to_pulse` (`src/lib.rs` lines 498-500):
`for channel in 0..C::CHANNELS`, over an explicit channel list. `get ch` is
`Order::get_channel_data(value, ch).into()` as a `usize`. -/
def convert_colors_loop (sz : Nat) (get : Nat → Nat) (pulses : PulseCode × PulseCode) :
    List Nat → BufCursor → Bool × BufCursor
  | [], it => (true, it)
  | ch :: rest, it =>
    match convert_channel_to_pulses sz (get ch) it pulses with
    | (true, it2) => convert_colors_loop sz get pulses rest it2
    | (false, it2) => (false, it2)

/-- `convert_colors_to_pulse::<C, Order>` from `src/lib.rs` lines 489-503.
`c` is `C::CHANNELS`. -/
def convert_colors_to_pulse (c sz : Nat) (get : Nat → Nat) (it : BufCursor)
    (pulses : PulseCode × PulseCode) : Bool × BufCursor :=
  convert_colors_loop sz get pulses (List.range c) it

/-- The driver struct `RmtSmartLeds` from `src/lib.rs` lines 295-308 (the
phantom type parameters carry no data and are dropped; `BUFFER_SIZE` is the
length of `rmt_buffer`). -/
structure RmtSmartLeds where
  channel : Option Channel
  rmt_buffer : List PulseCode
  pulses : PulseCode × PulseCode
deriving DecidableEq, Repr

def U16_MOD : Nat := 65536

def U32_MOD : Nat := 4294967296

/-- The pure part of `RmtSmartLeds::new_with_memsize` (`src/lib.rs` lines
351-391): the buffer starts as all end markers, and the two pulse descriptors
are fused from the timing's nanosecond values at clock `src_clock` MHz by
`((TIME as u32 * src_clock) / 1000) as u16`, modelled with the explicit `u32`
and `u16` reductions of those casts. The channel configuration itself is
external hardware; its successful result `chan` is a parameter. -/
def RmtSmartLeds.new_with_memsize (T : Timing) (src_clock : Nat) (chan : Channel)
    (BUFFER_SIZE : Nat) : RmtSmartLeds :=
  { channel := some chan
    rmt_buffer := List.replicate BUFFER_SIZE PulseCode.end_marker
    pulses :=
      (PulseCode.new true (T.TIME_0_HIGH * src_clock % U32_MOD / 1000 % U16_MOD)
        false (T.TIME_0_LOW * src_clock % U32_MOD / 1000 % U16_MOD),
       PulseCode.new true (T.TIME_1_HIGH * src_clock % U32_MOD / 1000 % U16_MOD)
        false (T.TIME_1_LOW * src_clock % U32_MOD / 1000 % U16_MOD)) }

/-- The loop body of `create_rmt_data` (`src/lib.rs` lines 404-406): convert
every iterator item, threading the cursor. `get color ch` is
`Order::get_channel_data(&item.into(), ch).into()`. -/
def create_colors_loop {α : Type} (c sz : Nat) (get : α → Nat → Nat)
    (pulses : PulseCode × PulseCode) : List α → BufCursor → Bool × BufCursor
  | [], it => (true, it)
  | color :: rest, it =>
    match convert_colors_to_pulse c sz (fun ch => get color ch) it pulses with
    | (true, it2) => create_colors_loop c sz get pulses rest it2
    | (false, it2) => (false, it2)

/-- `RmtSmartLeds::create_rmt_data` from `src/lib.rs` lines 394-412: encode all
colors from the start of the buffer, then write one end marker; any exhausted
cursor yields `BufferSizeExceeded`. Returns the result together with the
driver state (the buffer is mutated in place, so partial writes persist on
error). -/
def RmtSmartLeds.create_rmt_data {α : Type} (drv : RmtSmartLeds) (c sz : Nat)
    (get : α → Nat → Nat) (colors : List α) : Except AdapterError Unit × RmtSmartLeds :=
  match create_colors_loop c sz get drv.pulses colors ⟨drv.rmt_buffer, 0⟩ with
  | (false, it) => (Except.error AdapterError.BufferSizeExceeded, { drv with rmt_buffer := it.buf })
  | (true, it) =>
    match it.write PulseCode.end_marker with
    | none => (Except.error AdapterError.BufferSizeExceeded, { drv with rmt_buffer := it.buf })
    | some it2 => (Except.ok (), { drv with rmt_buffer := it2.buf })

/-- Outcome of the blocking hardware transmit, an oracle for the external
peripheral: `channel.transmit(&buf)` can fail (consuming the channel), and the
returned transaction's `wait()` can fail returning the channel, or succeed. -/
inductive HwResult where
  | submitError : RmtError → HwResult
  | waitError : RmtError → HwResult
  | done : HwResult
deriving DecidableEq, Repr

/-- Result of a `write` call: the returned value, the driver state after the
call, and whether a hardware transmit was attempted (instrumentation of the
external peripheral call, the collaborator stub of the spec). -/
structure WriteResult where
  result : Except AdapterError Unit
  driver : RmtSmartLeds
  submitted : Bool
deriving DecidableEq, Repr

/-- `<RmtSmartLeds as SmartLedsWrite>::write` from `src/lib.rs` lines 428-451:
encode first (`?` returns early on `BufferSizeExceeded`), then
`self.channel.take().unwrap()`, then `channel.transmit(&buf)?` (on error the
channel is consumed by the HAL and the early return leaves `self.channel`
empty), then `.wait()`, restoring the channel on both wait outcomes. -/
def SmartLedsWrite.write {α : Type} (drv : RmtSmartLeds) (c sz : Nat)
    (get : α → Nat → Nat) (colors : List α) (hw : HwResult) : WriteResult :=
  match drv.create_rmt_data c sz get colors with
  | (Except.error e, drv1) => ⟨Except.error e, drv1, false⟩
  | (Except.ok _, drv1) =>
    let chan := drv1.channel.get!
    let drv2 := { drv1 with channel := none }
    match hw with
    | HwResult.submitError e => ⟨Except.error (AdapterError.TransmissionError e), drv2, true⟩
    | HwResult.waitError e =>
      ⟨Except.error (AdapterError.TransmissionError e), { drv2 with channel := some chan }, true⟩
    | HwResult.done => ⟨Except.ok (), { drv2 with channel := some chan }, true⟩

/-- `<RmtSmartLeds as SmartLedsWriteAsync>::write` from `src/lib.rs` lines
467-486: encode first; on error the future returns it before any hardware
call; otherwise `self.channel.as_mut().unwrap().transmit(&buf).await?` — the
channel is only borrowed, never moved out. `hw` is the transmit outcome. -/
def SmartLedsWriteAsync.write {α : Type} (drv : RmtSmartLeds) (c sz : Nat)
    (get : α → Nat → Nat) (colors : List α) (hw : Except RmtError Unit) : WriteResult :=
  match drv.create_rmt_data c sz get colors with
  | (Except.error e, drv1) => ⟨Except.error e, drv1, false⟩
  | (Except.ok _, drv1) =>
    match hw with
    | Except.error e => ⟨Except.error (AdapterError.TransmissionError e), drv1, true⟩
    | Except.ok _ => ⟨Except.ok (), drv1, true⟩

/-- `RmtSmartLedsGraphics::coordinate_to_index` from `src/graphics.rs` lines
93-101: with snaking, every row `y` with `y.is_multiple_of(2)` has `x`
mirrored to `W - x - 1`; then `x + y * W`. -/
def coordinate_to_index (W : Nat) (SNAKING : Bool) (x y : Nat) : Nat :=
  let x := if SNAKING && (y % 2 == 0) then W - x - 1 else x
  x + y * W

/-- `embedded_graphics_core::pixelcolor::Rgb888`: three 8-bit components read
through `r()`, `g()`, `b()`. -/
structure Rgb888 where
  r : Nat
  g : Nat
  b : Nat
deriving DecidableEq, Repr

/-- `rgb888_to_rgb8` from `src/graphics.rs` lines 130-136. -/
def rgb888_to_rgb8 (v : Rgb888) : RGB Nat :=
  { r := v.r, g := v.g, b := v.b }

/-- `embedded_graphics_core::Pixel`: a point with `i32` coordinates and a
color. -/
structure GPixel where
  x : Int
  y : Int
  color : Rgb888
deriving DecidableEq, Repr

/-- Modelled from the spec: `RmtSmartLeds::write_pixel_data(index, color)` is
declared in §6 and used by `draw_iter` (`src/graphics.rs` line 173), but its
body is not under `src/`. Per §4.7, each accepted pixel writes a single Color
Value into the Pulse Encoder's target slot: the color's pulses are encoded at
the buffer slot of pixel `index` (one pixel occupies `c * (sz*8)` descriptor
slots), reporting `BufferSizeExceeded` on overflow. -/
def RmtSmartLeds.write_pixel_data (drv : RmtSmartLeds) (c sz : Nat) (get : Nat → Nat)
    (index : Nat) : Except AdapterError Unit × RmtSmartLeds :=
  match convert_colors_to_pulse c sz get ⟨drv.rmt_buffer, index * (c * (sz * 8))⟩ drv.pulses with
  | (true, it) => (Except.ok (), { drv with rmt_buffer := it.buf })
  | (false, it) => (Except.error AdapterError.BufferSizeExceeded, { drv with rmt_buffer := it.buf })

/-- `<RmtSmartLedsGraphics as DrawTarget>::draw_iter` from `src/graphics.rs`
lines 156-176: for each pixel, `coord.x.try_into()` fails exactly for negative
values (`continue`), likewise for `y`; then `x >= W || y >= H` is skipped;
otherwise `write_pixel_data(coordinate_to_index(x, y), rgb888_to_rgb8(color))?`
with `?` propagating errors. `get` is `Order::get_channel_data` for `RGB8`
composed with the `usize` conversion. -/
def draw_iter (W H : Nat) (SNAKING : Bool) (get : RGB Nat → Nat → Nat) :
    List GPixel → RmtSmartLeds → Except AdapterError Unit × RmtSmartLeds
  | [], drv => (Except.ok (), drv)
  | px :: rest, drv =>
    if px.x < 0 then draw_iter W H SNAKING get rest drv
    else if px.y < 0 then draw_iter W H SNAKING get rest drv
    else if W ≤ px.x.toNat ∨ H ≤ px.y.toNat then draw_iter W H SNAKING get rest drv
    else
      match drv.write_pixel_data 3 1 (get (rgb888_to_rgb8 px.color))
          (coordinate_to_index W SNAKING px.x.toNat px.y.toNat) with
      | (Except.ok _, drv2) => draw_iter W H SNAKING get rest drv2
      | (Except.error e, drv2) => (Except.error e, drv2)

/-- Specification-side encoding of one channel value, following the spec's
words (§4.5): across `w = channel_bit_width` bits, most-significant first,
emit the precomputed "1" descriptor (`pulses.2`) when the bit is 1, the "0"
descriptor (`pulses.1`) when it is 0. For comparison with the cursor-based
source encoder. -/
def specChannelPulses (w v : Nat) (pulses : PulseCode × PulseCode) : List PulseCode :=
  (List.range w).reverse.map (fun i => if v.testBit i then pulses.2 else pulses.1)

/-- Specification-side encoding of a color sequence, following the spec's
words (§4.5): for each Color Value in input order, for each channel index
`0..c` in wire order (via `get`, the Channel Order), emit that channel's bits
most-significant-first. -/
def specEncodedPulses {α : Type} (c sz : Nat) (get : α → Nat → Nat)
    (pulses : PulseCode × PulseCode) (colors : List α) : List PulseCode :=
  colors.flatMap (fun color =>
    (List.range c).flatMap (fun ch => specChannelPulses (sz * 8) (get color ch) pulses))

/-- In-place overwrite of a buffer starting at a position, one `List.set` per
written descriptor; the functional residue of a successful `writePulses` run. -/
def overwrite : List PulseCode → Nat → List PulseCode → List PulseCode
  | buf, _, [] => buf
  | buf, p, v :: vs => overwrite (buf.set p v) (p + 1) vs

/-- Concrete driver used to evaluate the theorems below on closed inputs: a
WS2812 driver at the 80 MHz APB clock, sized for one 8-bit RGB LED. -/
def demoDrv : RmtSmartLeds :=
  RmtSmartLeds.new_with_memsize Ws2812Timing 80 ⟨0⟩ (buffer_size 1 3 1)

/-- Concrete channel-order accessor (RGB wire order on 8-bit RGB colors) used
to evaluate the theorems below on closed inputs. -/
def demoGet (color : RGB Nat) (channel : Nat) : Nat :=
  color_order.Rgb.get_channel_data color channel

/-- Concrete one-LED color sequence used to evaluate the theorems below on
closed inputs. -/
def demoColors : List (RGB Nat) :=
  [{ r := 255, g := 0, b := 170 }]

/-- Writing a concatenation threads the cursor through the first block, then
the second; a failure in the first block short-circuits. -/
theorem writePulses_append (xs ys : List PulseCode) (it : BufCursor) :
    writePulses (xs ++ ys) it =
      match writePulses xs it with
      | (true, it2) => writePulses ys it2
      | (false, it2) => (false, it2) := by
  induction xs generalizing it with
  | nil => rfl
  | cons v vs ih =>
    simp only [List.cons_append, writePulses]
    cases h : it.write v with
    | none => rfl
    | some it2 => exact ih it2

/-- The channel-bit loop of the source is `writePulses` applied to the list of
descriptors selected by the `value &&& (1 << index)` test. -/
theorem convert_channel_loop_eq (cv : Nat) (ps : PulseCode × PulseCode)
    (idxs : List Nat) (it : BufCursor) :
    convert_channel_loop cv ps idxs it =
      writePulses (idxs.map (fun i => if cv &&& 2 ^ i == 0 then ps.1 else ps.2)) it := by
  induction idxs generalizing it with
  | nil => rfl
  | cons i rest ih =>
    simp only [List.map_cons, convert_channel_loop, writePulses]
    cases h : it.write (if cv &&& 2 ^ i == 0 then ps.1 else ps.2) with
    | none => rfl
    | some it2 => simp only [ih]

/-- The source's `value &&& (1 << index) == 0` test selects exactly the
descriptor the spec assigns to the bit `testBit value index`. -/
theorem srcBit_eq_testBit (cv i : Nat) (ps : PulseCode × PulseCode) :
    (if cv &&& 2 ^ i == 0 then ps.1 else ps.2) = (if cv.testBit i then ps.2 else ps.1) := by
  cases h : cv.testBit i with
  | false =>
    have hz : cv &&& 2 ^ i = 0 := by rw [Nat.and_two_pow, h]; simp
    simp [hz]
  | true =>
    have hz : cv &&& 2 ^ i = 2 ^ i := by rw [Nat.and_two_pow, h]; simp
    have hne : 2 ^ i ≠ 0 := (Nat.two_pow_pos i).ne'
    simp [hz, hne]

/-- `convert_channel_to_pulses` writes exactly the spec's per-channel list. -/
theorem convert_channel_to_pulses_eq (sz cv : Nat) (it : BufCursor)
    (ps : PulseCode × PulseCode) :
    convert_channel_to_pulses sz cv it ps =
      writePulses (specChannelPulses (sz * 8) cv ps) it := by
  rw [convert_channel_to_pulses, convert_channel_loop_eq, specChannelPulses]
  simp only [srcBit_eq_testBit]

/-- The per-color channel loop writes the concatenation of the spec's
per-channel lists over the given channel indices. -/
theorem convert_colors_loop_eq (sz : Nat) (get : Nat → Nat) (ps : PulseCode × PulseCode)
    (chs : List Nat) (it : BufCursor) :
    convert_colors_loop sz get ps chs it =
      writePulses (chs.flatMap (fun ch => specChannelPulses (sz * 8) (get ch) ps)) it := by
  induction chs generalizing it with
  | nil => rfl
  | cons ch rest ih =>
    rw [List.flatMap_cons, writePulses_append]
    simp only [convert_colors_loop, convert_channel_to_pulses_eq]
    cases hsp : writePulses (specChannelPulses (sz * 8) (get ch) ps) it with
    | mk b it2 => cases b <;> simp only [ih]

/-- `convert_colors_to_pulse` writes exactly the spec's pulses of one color. -/
theorem convert_colors_to_pulse_eq (c sz : Nat) (get : Nat → Nat) (it : BufCursor)
    (ps : PulseCode × PulseCode) :
    convert_colors_to_pulse c sz get it ps =
      writePulses ((List.range c).flatMap (fun ch => specChannelPulses (sz * 8) (get ch) ps)) it := by
  rw [convert_colors_to_pulse, convert_colors_loop_eq]

/-- The color loop of `create_rmt_data` writes exactly the spec's encoding of
the whole color sequence. -/
theorem create_colors_loop_eq {α : Type} (c sz : Nat) (get : α → Nat → Nat)
    (ps : PulseCode × PulseCode) (colors : List α) (it : BufCursor) :
    create_colors_loop c sz get ps colors it =
      writePulses (specEncodedPulses c sz get ps colors) it := by
  induction colors generalizing it with
  | nil => rfl
  | cons color rest ih =>
    rw [specEncodedPulses, List.flatMap_cons, writePulses_append]
    simp only [create_colors_loop, convert_colors_to_pulse_eq]
    cases hsp : writePulses ((List.range c).flatMap
        (fun ch => specChannelPulses (sz * 8) (get color ch) ps)) it with
    | mk b it2 =>
      cases b
      · rfl
      · exact ih it2

/-- The success flag of a sequential write is exactly the capacity test: the
write succeeds iff the descriptors fit between the cursor and the end of the
buffer (for any cursor not already past the end). -/
theorem writePulses_fst (vs : List PulseCode) (it : BufCursor)
    (h : it.pos ≤ it.buf.length) :
    (writePulses vs it).1 = decide (it.pos + vs.length ≤ it.buf.length) := by
  induction vs generalizing it with
  | nil => simp [writePulses, h]
  | cons v vs ih =>
    by_cases hlt : it.pos < it.buf.length
    · simp only [writePulses, BufCursor.write, if_pos hlt]
      rw [ih ⟨it.buf.set it.pos v, it.pos + 1⟩ (by simp; omega)]
      simp only [List.length_set, List.length_cons]
      have harith : it.pos + 1 + vs.length = it.pos + (vs.length + 1) := by omega
      rw [harith]
    · have heq : it.pos = it.buf.length := by omega
      simp only [writePulses, BufCursor.write, if_neg hlt]
      simp [List.length_cons]
      omega

/-- A successful sequential write lands on the in-place overwrite of the
buffer at the cursor, with the cursor advanced past the written block. -/
theorem writePulses_ok (vs : List PulseCode) (it : BufCursor)
    (h : it.pos + vs.length ≤ it.buf.length) :
    writePulses vs it = (true, ⟨overwrite it.buf it.pos vs, it.pos + vs.length⟩) := by
  induction vs generalizing it with
  | nil => rfl
  | cons v vs ih =>
    simp only [List.length_cons] at h
    have hlt : it.pos < it.buf.length := by omega
    simp only [writePulses, BufCursor.write, if_pos hlt]
    rw [ih ⟨it.buf.set it.pos v, it.pos + 1⟩ (by simp; omega)]
    have harith : it.pos + 1 + vs.length = it.pos + (vs.length + 1) := by omega
    simp only [overwrite, List.length_cons, harith]

/-- Overwriting below the head leaves the head in place. -/
theorem overwrite_cons (b : PulseCode) (buf : List PulseCode) (pos : Nat)
    (vs : List PulseCode) :
    overwrite (b :: buf) (pos + 1) vs = b :: overwrite buf pos vs := by
  induction vs generalizing buf pos b with
  | nil => rfl
  | cons v vs ih =>
    show overwrite (b :: buf.set pos v) (pos + 1 + 1) vs = _
    rw [ih]
    rfl

/-- Overwriting from the start of a buffer that is long enough replaces the
front of the buffer by the written block. -/
theorem overwrite_zero (vs buf : List PulseCode) (h : vs.length ≤ buf.length) :
    overwrite buf 0 vs = vs ++ buf.drop vs.length := by
  induction vs generalizing buf with
  | nil => simp [overwrite]
  | cons v vs ih =>
    cases buf with
    | nil => simp at h
    | cons b buf =>
      show overwrite (v :: buf) 1 vs = _
      rw [show (1 : Nat) = 0 + 1 from rfl, overwrite_cons, ih buf (by simpa using h)]
      rfl

/-- The spec's per-channel list has one descriptor per bit. -/
theorem length_specChannelPulses (w v : Nat) (ps : PulseCode × PulseCode) :
    (specChannelPulses w v ps).length = w := by
  simp [specChannelPulses]

/-- A channel-indexed concatenation of per-channel lists has `w` descriptors
per channel index. -/
theorem length_flatMap_specChannel (w : Nat) (g : Nat → Nat) (ps : PulseCode × PulseCode)
    (chs : List Nat) :
    (chs.flatMap (fun ch => specChannelPulses w (g ch) ps)).length = chs.length * w := by
  induction chs with
  | nil => simp
  | cons ch rest ih =>
    rw [List.flatMap_cons, List.length_append, length_specChannelPulses, ih,
      List.length_cons, Nat.succ_mul]
    omega

/-- The spec's encoding of `n` colors of a `c`-channel format with `sz`-byte
channels has exactly `n * c * (sz*8)` descriptors. -/
theorem length_specEncodedPulses {α : Type} (c sz : Nat) (get : α → Nat → Nat)
    (ps : PulseCode × PulseCode) (colors : List α) :
    (specEncodedPulses c sz get ps colors).length = colors.length * (c * (sz * 8)) := by
  induction colors with
  | nil => simp [specEncodedPulses]
  | cons color rest ih =>
    rw [specEncodedPulses, List.flatMap_cons, List.length_append,
      length_flatMap_specChannel, List.length_range]
    rw [specEncodedPulses] at ih
    rw [ih, List.length_cons, Nat.succ_mul]
    omega

/-- `create_rmt_data`, componentwise: its result flag is the capacity test for
the spec encoding plus the end marker, and its buffer is whatever the
sequential write of that block from position 0 leaves behind. -/
theorem create_rmt_data_split {α : Type} (drv : RmtSmartLeds) (c sz : Nat)
    (get : α → Nat → Nat) (colors : List α) :
    drv.create_rmt_data c sz get colors =
      ((if (writePulses (specEncodedPulses c sz get drv.pulses colors ++ [PulseCode.end_marker])
            ⟨drv.rmt_buffer, 0⟩).1
        then Except.ok () else Except.error AdapterError.BufferSizeExceeded),
       { drv with rmt_buffer :=
          (writePulses (specEncodedPulses c sz get drv.pulses colors ++ [PulseCode.end_marker])
            ⟨drv.rmt_buffer, 0⟩).2.buf }) := by
  unfold RmtSmartLeds.create_rmt_data
  rw [create_colors_loop_eq, writePulses_append]
  cases hsp : writePulses (specEncodedPulses c sz get drv.pulses colors) ⟨drv.rmt_buffer, 0⟩ with
  | mk b it =>
    cases b
    · rfl
    · show (match it.write PulseCode.end_marker with
        | none => (Except.error AdapterError.BufferSizeExceeded, { drv with rmt_buffer := it.buf })
        | some it2 => (Except.ok (), { drv with rmt_buffer := it2.buf })) = _
      cases hw : it.write PulseCode.end_marker with
      | none => simp [writePulses, hw]
      | some it2 => simp [writePulses, hw]

/-- `create_rmt_data` never touches the stored channel. -/
theorem create_rmt_data_channel {α : Type} (drv : RmtSmartLeds) (c sz : Nat)
    (get : α → Nat → Nat) (colors : List α) :
    (drv.create_rmt_data c sz get colors).2.channel = drv.channel := by
  rw [create_rmt_data_split]

/-- `create_rmt_data` never touches the two precomputed pulse descriptors. -/
theorem create_rmt_data_pulses {α : Type} (drv : RmtSmartLeds) (c sz : Nat)
    (get : α → Nat → Nat) (colors : List α) :
    (drv.create_rmt_data c sz get colors).2.pulses = drv.pulses := by
  rw [create_rmt_data_split]

/-- C2: For every color format (channel counts 1, 2, 3, 4, 5 as declared by
the five `Color` impls; channel widths `sz*8` with `sz` the channel byte
width, covering 8- and 16-bit channels), `buffer_size` equals
`n * channel_count * channel_bit_width + 1`; it is a total computable function
of its numeric inputs alone (the `const fn` of the source), evaluable ahead of
any hardware access. -/
theorem claim_C2 :
    ∀ (n sz : Nat),
      buffer_size sz RGB.CHANNELS n = n * RGB.CHANNELS * (sz * 8) + 1
      ∧ buffer_size sz RGBW.CHANNELS n = n * RGBW.CHANNELS * (sz * 8) + 1
      ∧ buffer_size sz RGBCCT.CHANNELS n = n * RGBCCT.CHANNELS * (sz * 8) + 1
      ∧ buffer_size sz White.CHANNELS n = n * White.CHANNELS * (sz * 8) + 1
      ∧ buffer_size sz CctWhite.CHANNELS n = n * CctWhite.CHANNELS * (sz * 8) + 1 := by
  intro n sz
  refine ⟨?_, ?_, ?_, ?_, ?_⟩ <;>
    simp only [buffer_size, RGB.CHANNELS, RGBW.CHANNELS, RGBCCT.CHANNELS, White.CHANNELS,
      CctWhite.CHANNELS] <;> ring

/-- C10: the 2D sizing helper agrees with the 1D one on every format and all
panel dimensions: `buffer_size_2d` of `w`, `h` is `buffer_size` of `w * h`. -/
theorem claim_C10 :
    ∀ (sz channels w h : Nat),
      buffer_size_2d sz channels w h = buffer_size sz channels (w * h)
      ∧ buffer_size_2d sz channels w h = (w * h) * (sz * 8) * channels + 1 := by
  intro sz channels w h
  exact ⟨rfl, rfl⟩

/-- C5: `coordinate_to_index` maps in-range coordinates as the claim states:
without snaking `x + y*W` on every row; with snaking, rows with `y % 2 = 0`
(including row 0) mirror `x` to `W - x - 1` first, rows with odd `y` are
unchanged; on a 4-wide panel, non-snaking `(2,1) ↦ 6`, snaking `(2,0) ↦ 1`
and `(2,1) ↦ 6`. -/
theorem claim_C5 (W x y : Nat) (hx : x < W) :
    coordinate_to_index W false x y = x + y * W
    ∧ (y % 2 = 0 → coordinate_to_index W true x y = (W - x - 1) + y * W)
    ∧ (y % 2 = 1 → coordinate_to_index W true x y = x + y * W)
    ∧ coordinate_to_index 4 false 2 1 = 6
    ∧ coordinate_to_index 4 true 2 0 = 1
    ∧ coordinate_to_index 4 true 2 1 = 6 := by
  refine ⟨?_, ?_, ?_, by decide, by decide, by decide⟩
  · simp [coordinate_to_index]
  · intro h
    simp [coordinate_to_index, h]
  · intro h
    simp [coordinate_to_index, h]

/-- Closed witness for C5 at `W = 4`, `x = 2`, `y = 1`. -/
theorem claim_C5_witness :
    2 < 4
    ∧ (coordinate_to_index 4 false 2 1 = 2 + 1 * 4
      ∧ (1 % 2 = 0 → coordinate_to_index 4 true 2 1 = (4 - 2 - 1) + 1 * 4)
      ∧ (1 % 2 = 1 → coordinate_to_index 4 true 2 1 = 2 + 1 * 4)
      ∧ coordinate_to_index 4 false 2 1 = 6
      ∧ coordinate_to_index 4 true 2 0 = 1
      ∧ coordinate_to_index 4 true 2 1 = 6) :=
  ⟨by decide, claim_C5 4 2 1 (by decide)⟩

/-- C8: every declared channel ordering returns, for each in-range channel
index, exactly the color field documented for that position in its name: the
six RGB permutations over channels 0, 1, 2, and `Rgbw` over channels 0-3 with
white (the `a` field's inner value) at index 3. -/
theorem claim_C8 :
    ∀ (T : Type) [Inhabited T] (c3 : RGB T) (c4 : RGBW T),
      color_order.Rgb.get_channel_data c3 0 = c3.r
      ∧ color_order.Rgb.get_channel_data c3 1 = c3.g
      ∧ color_order.Rgb.get_channel_data c3 2 = c3.b
      ∧ color_order.Rbg.get_channel_data c3 0 = c3.r
      ∧ color_order.Rbg.get_channel_data c3 1 = c3.b
      ∧ color_order.Rbg.get_channel_data c3 2 = c3.g
      ∧ color_order.Grb.get_channel_data c3 0 = c3.g
      ∧ color_order.Grb.get_channel_data c3 1 = c3.r
      ∧ color_order.Grb.get_channel_data c3 2 = c3.b
      ∧ color_order.Gbr.get_channel_data c3 0 = c3.g
      ∧ color_order.Gbr.get_channel_data c3 1 = c3.b
      ∧ color_order.Gbr.get_channel_data c3 2 = c3.r
      ∧ color_order.Brg.get_channel_data c3 0 = c3.b
      ∧ color_order.Brg.get_channel_data c3 1 = c3.r
      ∧ color_order.Brg.get_channel_data c3 2 = c3.g
      ∧ color_order.Bgr.get_channel_data c3 0 = c3.b
      ∧ color_order.Bgr.get_channel_data c3 1 = c3.g
      ∧ color_order.Bgr.get_channel_data c3 2 = c3.r
      ∧ color_order.Rgbw.get_channel_data c4 0 = c4.r
      ∧ color_order.Rgbw.get_channel_data c4 1 = c4.g
      ∧ color_order.Rgbw.get_channel_data c4 2 = c4.b
      ∧ color_order.Rgbw.get_channel_data c4 3 = c4.a.val := by
  intro T _ c3 c4
  exact ⟨rfl, rfl, rfl, rfl, rfl, rfl, rfl, rfl, rfl, rfl, rfl, rfl, rfl, rfl, rfl, rfl,
    rfl, rfl, rfl, rfl, rfl, rfl⟩

/-- C7: encoding the empty input is valid: any driver whose buffer holds at
least one slot encodes the empty sequence successfully, writing exactly the
end marker at the start of the buffer and leaving the rest untouched. -/
theorem claim_C7 {α : Type} (drv : RmtSmartLeds) (c sz : Nat) (get : α → Nat → Nat)
    (h : 1 ≤ drv.rmt_buffer.length) :
    drv.create_rmt_data c sz get ([] : List α) =
      (Except.ok (), { drv with rmt_buffer := PulseCode.end_marker :: drv.rmt_buffer.drop 1 }) := by
  rw [create_rmt_data_split]
  have hsp : specEncodedPulses c sz get drv.pulses ([] : List α) = [] := rfl
  rw [hsp, List.nil_append]
  rw [writePulses_ok [PulseCode.end_marker] ⟨drv.rmt_buffer, 0⟩ (by simp; omega)]
  rw [show overwrite drv.rmt_buffer 0 [PulseCode.end_marker] =
    [PulseCode.end_marker] ++ drv.rmt_buffer.drop 1 from
      overwrite_zero [PulseCode.end_marker] drv.rmt_buffer (by simp; omega)]
  rfl

/-- Closed witness for C7: the demo driver (buffer capacity 25) encodes the
empty color list into a lone end marker. -/
theorem claim_C7_witness :
    1 ≤ demoDrv.rmt_buffer.length
    ∧ demoDrv.create_rmt_data 3 1 demoGet ([] : List (RGB Nat)) =
        (Except.ok (),
         { demoDrv with rmt_buffer := PulseCode.end_marker :: demoDrv.rmt_buffer.drop 1 }) :=
  ⟨by decide, claim_C7 demoDrv 3 1 demoGet (by decide)⟩

/-- C1: a successful encode of `n` colors of a `c`-channel format with
`sz`-byte (`b = sz*8`-bit) channels fills the buffer from the start with
exactly `n*c*b` descriptors — by input position, then channel index in wire
order (`get`, the `ColorOrder` accessor), then most-significant-bit-first,
each slot holding the precomputed "1" descriptor (`pulses.2`) for a 1 bit and
the "0" descriptor (`pulses.1`) for a 0 bit, as transcribed by
`specEncodedPulses` — followed by exactly one end marker at position `n*c*b`,
with the rest of the buffer untouched. -/
theorem claim_C1 {α : Type} (drv : RmtSmartLeds) (c sz : Nat) (get : α → Nat → Nat)
    (colors : List α)
    (hok : (drv.create_rmt_data c sz get colors).1 = Except.ok ()) :
    drv.create_rmt_data c sz get colors =
      (Except.ok (), { drv with rmt_buffer :=
                        specEncodedPulses c sz get drv.pulses colors ++
                          PulseCode.end_marker ::
                            drv.rmt_buffer.drop (colors.length * (c * (sz * 8)) + 1) })
    ∧ (specEncodedPulses c sz get drv.pulses colors).length
        = colors.length * (c * (sz * 8)) := by
  have hlen := length_specEncodedPulses c sz get drv.pulses colors
  have hfst := writePulses_fst
    (specEncodedPulses c sz get drv.pulses colors ++ [PulseCode.end_marker])
    ⟨drv.rmt_buffer, 0⟩ (by simp)
  rw [create_rmt_data_split] at hok
  by_cases hcond : (writePulses
      (specEncodedPulses c sz get drv.pulses colors ++ [PulseCode.end_marker])
      ⟨drv.rmt_buffer, 0⟩).1 = true
  · have hcap : (0 : Nat) +
        (specEncodedPulses c sz get drv.pulses colors ++ [PulseCode.end_marker]).length
          ≤ drv.rmt_buffer.length := by
      rw [hcond] at hfst
      exact of_decide_eq_true hfst.symm
    have hw := writePulses_ok
      (specEncodedPulses c sz get drv.pulses colors ++ [PulseCode.end_marker])
      ⟨drv.rmt_buffer, 0⟩ hcap
    rw [create_rmt_data_split, hw]
    have hov := overwrite_zero
      (specEncodedPulses c sz get drv.pulses colors ++ [PulseCode.end_marker])
      drv.rmt_buffer (by simpa using hcap)
    refine ⟨?_, hlen⟩
    have hflen :
        (specEncodedPulses c sz get drv.pulses colors ++ [PulseCode.end_marker]).length
          = colors.length * (c * (sz * 8)) + 1 := by
      rw [List.length_append, hlen]; rfl
    rw [hw] at hcond
    simp only [hcond, if_true]
    refine Prod.ext rfl ?_
    show ({ drv with rmt_buffer := overwrite drv.rmt_buffer 0 _ } : RmtSmartLeds) = _
    rw [hov, hflen]
    rw [List.append_assoc, List.singleton_append]
  · rw [if_neg hcond] at hok
    exact absurd hok (by simp)

/-- Closed witness for C1: the demo driver (sized for one 8-bit RGB LED)
successfully encodes one color into the 24 spec descriptors plus the end
marker. -/
theorem claim_C1_witness :
    ((demoDrv.create_rmt_data 3 1 demoGet demoColors).1 = Except.ok ())
    ∧ (demoDrv.create_rmt_data 3 1 demoGet demoColors =
        (Except.ok (),
         { demoDrv with rmt_buffer := specEncodedPulses 3 1 demoGet demoDrv.pulses demoColors ++
             PulseCode.end_marker ::
               demoDrv.rmt_buffer.drop (demoColors.length * (3 * (1 * 8)) + 1) })
      ∧ (specEncodedPulses 3 1 demoGet demoDrv.pulses demoColors).length
          = demoColors.length * (3 * (1 * 8))) :=
  ⟨by decide, claim_C1 demoDrv 3 1 demoGet demoColors (by decide)⟩

/-- C3: writing `n+1` or more colors through a driver whose buffer was sized
with `buffer_size` for `n` LEDs fails with `BufferSizeExceeded` on both the
blocking and the async path, before any hardware engagement: no transmit is
submitted (for every possible hardware outcome) and the channel is never taken
out of the driver. -/
theorem claim_C3 {α : Type} (drv : RmtSmartLeds) (n c sz : Nat) (get : α → Nat → Nat)
    (colors : List α) (hc : 1 ≤ c) (hsz : 1 ≤ sz)
    (hbuf : drv.rmt_buffer.length = buffer_size sz c n) (hlen : n + 1 ≤ colors.length) :
    (∀ hw : HwResult,
      (SmartLedsWrite.write drv c sz get colors hw).result
          = Except.error AdapterError.BufferSizeExceeded
      ∧ (SmartLedsWrite.write drv c sz get colors hw).submitted = false
      ∧ (SmartLedsWrite.write drv c sz get colors hw).driver.channel = drv.channel)
    ∧ (∀ hwa : Except RmtError Unit,
      (SmartLedsWriteAsync.write drv c sz get colors hwa).result
          = Except.error AdapterError.BufferSizeExceeded
      ∧ (SmartLedsWriteAsync.write drv c sz get colors hwa).submitted = false
      ∧ (SmartLedsWriteAsync.write drv c sz get colors hwa).driver.channel = drv.channel) := by
  have hK : 0 < c * (sz * 8) := Nat.mul_pos (by omega) (by omega)
  have hle : (n + 1) * (c * (sz * 8)) ≤ colors.length * (c * (sz * 8)) :=
    Nat.mul_le_mul_right (c * (sz * 8)) hlen
  have hsucc : (n + 1) * (c * (sz * 8)) = n * (c * (sz * 8)) + c * (sz * 8) := by
    rw [Nat.succ_mul]
  have hmul : n * (c * (sz * 8)) < colors.length * (c * (sz * 8)) := by omega
  have hL : drv.rmt_buffer.length = n * (c * (sz * 8)) + 1 := by
    rw [hbuf, buffer_size]
    ring_nf
  have hflen :
      (specEncodedPulses c sz get drv.pulses colors ++ [PulseCode.end_marker]).length
        = colors.length * (c * (sz * 8)) + 1 := by
    rw [List.length_append, length_specEncodedPulses]; rfl
  have hnofit : ¬ ((0 : Nat) +
      (specEncodedPulses c sz get drv.pulses colors ++ [PulseCode.end_marker]).length
        ≤ drv.rmt_buffer.length) := by
    rw [hflen, hL]
    omega
  have hfst := writePulses_fst
    (specEncodedPulses c sz get drv.pulses colors ++ [PulseCode.end_marker])
    ⟨drv.rmt_buffer, 0⟩ (by simp)
  rw [decide_eq_false hnofit] at hfst
  have herr : (drv.create_rmt_data c sz get colors).1
      = Except.error AdapterError.BufferSizeExceeded := by
    rw [create_rmt_data_split]
    simp [hfst]
  have hchan := create_rmt_data_channel drv c sz get colors
  rcases hcr : drv.create_rmt_data c sz get colors with ⟨res, drv1⟩
  rw [hcr] at herr hchan
  simp only at herr hchan
  constructor
  · intro hw
    simp only [SmartLedsWrite.write, hcr, herr]
    exact ⟨trivial, trivial, hchan⟩
  · intro hwa
    simp only [SmartLedsWriteAsync.write, hcr, herr]
    exact ⟨trivial, trivial, hchan⟩

/-- Closed witness for C3: the demo driver is sized for one LED; writing two
colors fails pre-transmit on both paths, here evaluated at the successful
hardware outcomes. -/
theorem claim_C3_witness :
    1 ≤ 3 ∧ 1 ≤ 1 ∧ demoDrv.rmt_buffer.length = buffer_size 1 3 1
    ∧ 1 + 1 ≤ (demoColors ++ demoColors).length
    ∧ (SmartLedsWrite.write demoDrv 3 1 demoGet (demoColors ++ demoColors)
        HwResult.done).result = Except.error AdapterError.BufferSizeExceeded
    ∧ (SmartLedsWrite.write demoDrv 3 1 demoGet (demoColors ++ demoColors)
        HwResult.done).submitted = false
    ∧ (SmartLedsWrite.write demoDrv 3 1 demoGet (demoColors ++ demoColors)
        HwResult.done).driver.channel = demoDrv.channel
    ∧ (SmartLedsWriteAsync.write demoDrv 3 1 demoGet (demoColors ++ demoColors)
        (Except.ok ())).result = Except.error AdapterError.BufferSizeExceeded
    ∧ (SmartLedsWriteAsync.write demoDrv 3 1 demoGet (demoColors ++ demoColors)
        (Except.ok ())).submitted = false
    ∧ (SmartLedsWriteAsync.write demoDrv 3 1 demoGet (demoColors ++ demoColors)
        (Except.ok ())).driver.channel = demoDrv.channel := by
  have h := claim_C3 demoDrv 1 3 1 demoGet (demoColors ++ demoColors)
    (by decide) (by decide) (by decide) (by decide)
  exact ⟨by decide, by decide, by decide, by decide,
    (h.1 HwResult.done).1, (h.1 HwResult.done).2.1, (h.1 HwResult.done).2.2,
    (h.2 (Except.ok ())).1, (h.2 (Except.ok ())).2.1, (h.2 (Except.ok ())).2.2⟩

/-- When the tick value fits in `u16` (as it does for all provided timings at
the ESP32 clock rates), the source's `((ns as u32 * clk) / 1000) as u16`
computation is exactly the truncating `ns * clk / 1000`. -/
theorem tick_cast (ns clk : Nat) (h : ns * clk / 1000 < 65536) :
    ns * clk % U32_MOD / 1000 % U16_MOD = ns * clk / 1000 := by
  have h32 : ns * clk < 4294967296 := by omega
  rw [U32_MOD, U16_MOD, Nat.mod_eq_of_lt h32, Nat.mod_eq_of_lt h]

/-- C6: at construction, each of the four nanosecond durations is converted to
ticks by the truncating computation `ns * clock_MHz / 1000` (exactly, whenever
the result fits the `u16` duration field), fused into exactly two pulse
descriptors (the "0"-bit and "1"-bit codes); and the encoder never changes the
stored descriptor pair: every later encode operation leaves `pulses`
untouched (and, by C1, fills slots exclusively from that stored pair). -/
theorem claim_C6 (T : Timing) (clk : Nat) (chan : Channel) (B : Nat)
    (h0H : T.TIME_0_HIGH * clk / 1000 < 65536) (h0L : T.TIME_0_LOW * clk / 1000 < 65536)
    (h1H : T.TIME_1_HIGH * clk / 1000 < 65536) (h1L : T.TIME_1_LOW * clk / 1000 < 65536) :
    (RmtSmartLeds.new_with_memsize T clk chan B).pulses =
      (PulseCode.new true (T.TIME_0_HIGH * clk / 1000) false (T.TIME_0_LOW * clk / 1000),
       PulseCode.new true (T.TIME_1_HIGH * clk / 1000) false (T.TIME_1_LOW * clk / 1000))
    ∧ ∀ (β : Type) (drv : RmtSmartLeds) (c sz : Nat) (get : β → Nat → Nat) (colors : List β),
        (drv.create_rmt_data c sz get colors).2.pulses = drv.pulses := by
  refine ⟨?_, ?_⟩
  · show (PulseCode.new _ _ _ _, PulseCode.new _ _ _ _) = _
    rw [tick_cast _ _ h0H, tick_cast _ _ h0L, tick_cast _ _ h1H, tick_cast _ _ h1L]
  · intro β drv c sz get colors
    exact create_rmt_data_pulses drv c sz get colors

/-- Closed witness for C6: the WS2812 timing at the 80 MHz APB clock yields
the tick pair ((28, 56), (64, 48)). -/
theorem claim_C6_witness :
    Ws2812Timing.TIME_0_HIGH * 80 / 1000 < 65536
    ∧ Ws2812Timing.TIME_0_LOW * 80 / 1000 < 65536
    ∧ Ws2812Timing.TIME_1_HIGH * 80 / 1000 < 65536
    ∧ Ws2812Timing.TIME_1_LOW * 80 / 1000 < 65536
    ∧ ((RmtSmartLeds.new_with_memsize Ws2812Timing 80 ⟨0⟩ 25).pulses =
        (PulseCode.new true (Ws2812Timing.TIME_0_HIGH * 80 / 1000)
          false (Ws2812Timing.TIME_0_LOW * 80 / 1000),
         PulseCode.new true (Ws2812Timing.TIME_1_HIGH * 80 / 1000)
          false (Ws2812Timing.TIME_1_LOW * 80 / 1000))
      ∧ ∀ (β : Type) (drv : RmtSmartLeds) (c sz : Nat) (get : β → Nat → Nat) (colors : List β),
          (drv.create_rmt_data c sz get colors).2.pulses = drv.pulses) :=
  ⟨by decide, by decide, by decide, by decide,
   claim_C6 Ws2812Timing 80 ⟨0⟩ 25 (by decide) (by decide) (by decide) (by decide)⟩

/-- C4 (code bug evaluation): a blocking `write` on which the hardware
`transmit` call itself fails does wrap the error as `TransmissionError`, but
the channel is NOT restored into the driver: the early `?` return after
`self.channel.take()` leaves `channel = none`, so a subsequent `write` would
panic at `unwrap()` — exactly the hazard the source's own TODO comment at
`src/lib.rs` lines 437-440 documents. Evaluated at a concrete failing input
(one RGB color, transmit submission fails with inner HAL error 7). -/
theorem claim_C4_code_bug :
    demoDrv.channel = some ⟨0⟩
    ∧ (SmartLedsWrite.write demoDrv 3 1 demoGet demoColors
         (HwResult.submitError ⟨7⟩)).result
        = Except.error (AdapterError.TransmissionError ⟨7⟩)
    ∧ (SmartLedsWrite.write demoDrv 3 1 demoGet demoColors
         (HwResult.submitError ⟨7⟩)).driver.channel = none
    ∧ (SmartLedsWrite.write demoDrv 3 1 demoGet demoColors
         (HwResult.waitError ⟨7⟩)).driver.channel = some ⟨0⟩ := by
  refine ⟨by decide, by decide, by decide, by decide⟩

/-- C9: every pixel handed to `draw_iter` whose coordinates fall outside
`[0, W) × [0, H)` — negative `x` or `y` included — is silently skipped: it
raises no error and leaves the driver (including the pulse buffer) exactly as
the remaining pixels alone would, so only in-range pixels ever cause a write
into the driver's target slot. -/
theorem claim_C9 (W H : Nat) (SNAKING : Bool) (get : RGB Nat → Nat → Nat)
    (px : GPixel) (rest : List GPixel) (drv : RmtSmartLeds)
    (hout : px.x < 0 ∨ px.y < 0 ∨ W ≤ px.x.toNat ∨ H ≤ px.y.toNat) :
    draw_iter W H SNAKING get (px :: rest) drv = draw_iter W H SNAKING get rest drv := by
  by_cases h1 : px.x < 0
  · simp [draw_iter, h1]
  · by_cases h2 : px.y < 0
    · simp [draw_iter, h1, h2]
    · have h3 : W ≤ px.x.toNat ∨ H ≤ px.y.toNat := by
        rcases hout with h | h | h | h
        · exact absurd h h1
        · exact absurd h h2
        · exact Or.inl h
        · exact Or.inr h
      simp [draw_iter, h1, h2, h3]

/-- Closed witness for C9: a pixel at `(-1, 0)` on a 4×2 panel is skipped. -/
theorem claim_C9_witness :
    ((⟨-1, 0, ⟨9, 9, 9⟩⟩ : GPixel).x < 0 ∨ (⟨-1, 0, ⟨9, 9, 9⟩⟩ : GPixel).y < 0
      ∨ 4 ≤ (⟨-1, 0, ⟨9, 9, 9⟩⟩ : GPixel).x.toNat
      ∨ 2 ≤ (⟨-1, 0, ⟨9, 9, 9⟩⟩ : GPixel).y.toNat)
    ∧ draw_iter 4 2 true demoGet [⟨-1, 0, ⟨9, 9, 9⟩⟩] demoDrv
        = draw_iter 4 2 true demoGet [] demoDrv :=
  ⟨by decide,
   claim_C9 4 2 true demoGet ⟨-1, 0, ⟨9, 9, 9⟩⟩ [] demoDrv (by decide)⟩
